import Mathlib

/-!
Verification development for the OTC options calculator.

The definitions below are a shallow embedding, over the real numbers, of
the repository's pricing core:
  * `src/pricing/black_scholes.py` — `gk_price`, `gk_greeks`,
    `implied_volatility` (Newton–Raphson with bisection fallback);
  * the pure volatility computation of
    `src/market_data/fetcher.py::fetch_historical_volatility`;
  * the day-count / dispatch slice of `src/app.py::calculate` and
    `src/app.py::calc_implied_vol`.

Python raising `ValueError` is modelled as `Except.error` with an
explicit error constructor; `scipy.stats.norm.cdf`/`norm.pdf` are the
exact standard normal cumulative distribution and density.
-/

open MeasureTheory

/-- Errors raised by the pricing core (`ValueError` in the source,
distinguished by their message). -/
inductive PErr where
  /-- Message "Volatility must be positive" (`gk_price`). -/
  | nonPosVol
  /-- Message "Cannot compute implied volatility at or past expiry". -/
  | pastExpiry
  /-- Message "Market price is below intrinsic value". -/
  | belowIntrinsic
  /-- Message "Market price exceeds arbitrage upper bound". -/
  | aboveCeiling
  deriving DecidableEq

/-- Standard normal density, `scipy.stats.norm.pdf`. -/
noncomputable def normalPDF (t : ℝ) : ℝ :=
  Real.exp (-(t ^ 2) / 2) / Real.sqrt (2 * Real.pi)

/-- Standard normal cumulative distribution, `scipy.stats.norm.cdf`. -/
noncomputable def Phi (x : ℝ) : ℝ :=
  ∫ t in Set.Iic x, normalPDF t

/-- Embedding of `gk_price` from `src/pricing/black_scholes.py` (lines 13–49).
Any `option_type` other than `"call"` takes the put branch, as in the
source's `if option_type == 'call' ... else ...`. -/
noncomputable def gk_price (S K T r_d r_f sigma : ℝ) (option_type : String) :
    Except PErr ℝ :=
  if T ≤ 0 then
    if option_type = "call" then .ok (max (S - K) 0) else .ok (max (K - S) 0)
  else if sigma ≤ 0 then .error .nonPosVol
  else
    let sqrt_T := Real.sqrt T
    let d1 := (Real.log (S / K) + (r_d - r_f + 0.5 * sigma ^ 2) * T) / (sigma * sqrt_T)
    let d2 := d1 - sigma * sqrt_T
    if option_type = "call" then
      .ok (S * Real.exp (-r_f * T) * Phi d1 - K * Real.exp (-r_d * T) * Phi d2)
    else
      .ok (K * Real.exp (-r_d * T) * Phi (-d2) - S * Real.exp (-r_f * T) * Phi (-d1))

/-- The `d1` term of the Garman–Kohlhagen model, as computed (as a local
variable) in `gk_price`, `gk_greeks` and `implied_volatility`. -/
noncomputable def d1 (S K T r_d r_f sigma : ℝ) : ℝ :=
  (Real.log (S / K) + (r_d - r_f + 0.5 * sigma ^ 2) * T) / (sigma * Real.sqrt T)

/-- The `d2` term, `d1 - σ·√T`. -/
noncomputable def d2 (S K T r_d r_f sigma : ℝ) : ℝ :=
  d1 S K T r_d r_f sigma - sigma * Real.sqrt T

/-- The Greeks record returned by `gk_greeks`. -/
structure Greeks where
  delta : ℝ
  gamma : ℝ
  vega : ℝ
  theta : ℝ
  rho_d : ℝ
  rho_f : ℝ

/-- Embedding of `gk_greeks` from `src/pricing/black_scholes.py` (lines 52–116).
Note the source performs no volatility validation in this function. -/
noncomputable def gk_greeks (S K T r_d r_f sigma : ℝ) (option_type : String) : Greeks :=
  if T ≤ 0 then
    { delta := if option_type = "call" ∧ S > K then 1.0
               else if option_type = "put" ∧ S < K then -1.0 else 0.0
      gamma := 0, vega := 0, theta := 0, rho_d := 0, rho_f := 0 }
  else
    let sqrt_T := Real.sqrt T
    let d1 := (Real.log (S / K) + (r_d - r_f + 0.5 * sigma ^ 2) * T) / (sigma * sqrt_T)
    let d2 := d1 - sigma * sqrt_T
    let nd1 := normalPDF d1
    let Nd1 := Phi d1
    let Nd2 := Phi d2
    let exp_rf := Real.exp (-r_f * T)
    let exp_rd := Real.exp (-r_d * T)
    let gamma := exp_rf * nd1 / (S * sigma * sqrt_T)
    let vega_raw := S * exp_rf * nd1 * sqrt_T
    if option_type = "call" then
      { delta := exp_rf * Nd1
        gamma := gamma
        vega := vega_raw / 100
        theta := (-(S * sigma * exp_rf * nd1) / (2 * sqrt_T)
                  + r_f * S * exp_rf * Nd1 - r_d * K * exp_rd * Nd2) / 365
        rho_d := K * T * exp_rd * Nd2 / 100
        rho_f := -S * T * exp_rf * Nd1 / 100 }
    else
      let Nmd1 := Phi (-d1)
      let Nmd2 := Phi (-d2)
      { delta := -exp_rf * Nmd1
        gamma := gamma
        vega := vega_raw / 100
        theta := (-(S * sigma * exp_rf * nd1) / (2 * sqrt_T)
                  - r_f * S * exp_rf * Nmd1 + r_d * K * exp_rd * Nmd2) / 365
        rho_d := -K * T * exp_rd * Nmd2 / 100
        rho_f := S * T * exp_rf * Nmd1 / 100 }

/-- Embedding of `np.clip(x, lo, hi)`. -/
noncomputable def clip (x lo hi : ℝ) : ℝ := min (max x lo) hi

/-- The intrinsic lower no-arbitrage bound computed by
`implied_volatility` (lines 140–143 of `black_scholes.py`). -/
noncomputable def lowerBound (S K T r_d r_f : ℝ) (option_type : String) : ℝ :=
  if option_type = "call" then
    max (S * Real.exp (-r_f * T) - K * Real.exp (-r_d * T)) 0
  else
    max (K * Real.exp (-r_d * T) - S * Real.exp (-r_f * T)) 0

/-- The discounted-forward upper no-arbitrage bound computed by
`implied_volatility` (lines 141–144 of `black_scholes.py`). -/
noncomputable def upperBound (S K T r_d r_f : ℝ) (option_type : String) : ℝ :=
  if option_type = "call" then S * Real.exp (-r_f * T) else K * Real.exp (-r_d * T)

/-- The bisection fallback loop of `implied_volatility` (lines 176–186).
The fuel counts remaining loop iterations; on the last iteration the
source returns the midpoint it just computed, so `fuel = 1` returns
`sigma_mid` unconditionally.  The `fuel = 0` case is never reached from
`implied_volatility`, which always supplies 200 iterations. -/
noncomputable def bisect (S K T r_d r_f : ℝ) (option_type : String)
    (price_market tol : ℝ) : ℕ → ℝ → ℝ → Except PErr ℝ
  | 0, sigma_low, sigma_high => .ok ((sigma_low + sigma_high) / 2)
  | fuel + 1, sigma_low, sigma_high =>
      let sigma_mid := (sigma_low + sigma_high) / 2
      match gk_price S K T r_d r_f sigma_mid option_type with
      | .error e => .error e
      | .ok price_mid =>
          if |price_mid - price_market| < tol then .ok sigma_mid
          else if fuel = 0 then .ok sigma_mid
          else if price_market < price_mid then
            bisect S K T r_d r_f option_type price_market tol fuel sigma_low sigma_mid
          else
            bisect S K T r_d r_f option_type price_market tol fuel sigma_mid sigma_high

/-- The Newton–Raphson loop of `implied_volatility` (lines 155–174):
up to `fuel` iterations; on convergence returns σ; on vega underflow
(`vega < 1e-12`) or fuel exhaustion falls back to 200 bisection steps
over [0.001, 10]. -/
noncomputable def newton (S K T r_d r_f : ℝ) (option_type : String)
    (price_market tol : ℝ) : ℕ → ℝ → Except PErr ℝ
  | 0, _sigma => bisect S K T r_d r_f option_type price_market tol 200 0.001 10.0
  | fuel + 1, sigma =>
      match gk_price S K T r_d r_f sigma option_type with
      | .error e => .error e
      | .ok price_calc =>
          let diff := price_calc - price_market
          if |diff| < tol then .ok sigma
          else
            let sqrt_T := Real.sqrt T
            let d1 := (Real.log (S / K) + (r_d - r_f + 0.5 * sigma ^ 2) * T) / (sigma * sqrt_T)
            let vega := S * Real.exp (-r_f * T) * normalPDF d1 * sqrt_T
            if vega < 1e-12 then
              bisect S K T r_d r_f option_type price_market tol 200 0.001 10.0
            else
              newton S K T r_d r_f option_type price_market tol fuel
                (clip (sigma - diff / vega) 0.001 10.0)

/-- Embedding of `implied_volatility` from `src/pricing/black_scholes.py`
(lines 119–186), at the default `tol = 1e-8`, `max_iter = 100`. -/
noncomputable def implied_volatility (price_market S K T r_d r_f : ℝ)
    (option_type : String) : Except PErr ℝ :=
  if T ≤ 0 then .error .pastExpiry
  else if price_market ≤ lowerBound S K T r_d r_f option_type then
    .error .belowIntrinsic
  else if upperBound S K T r_d r_f option_type ≤ price_market then
    .error .aboveCeiling
  else
    newton S K T r_d r_f option_type price_market 1e-8 100
      (clip (Real.sqrt (2 * Real.pi / T) * price_market / S) 0.01 5.0)

/-- Embedding of `np.diff`: consecutive differences of a list. -/
def npDiff : List ℝ → List ℝ
  | x :: y :: rest => (y - x) :: npDiff (y :: rest)
  | _ => []

/-- Embedding of `np.mean` of a list (sum divided by length). -/
noncomputable def listMean (l : List ℝ) : ℝ := l.sum / l.length

/-- Embedding of `np.std(l, ddof=1)`: Bessel-corrected sample standard deviation. -/
noncomputable def sampleStd (l : List ℝ) : ℝ :=
  Real.sqrt ((l.map (fun x => (x - listMean l) ^ 2)).sum / ((l.length : ℝ) - 1))

/-- The log returns surviving the 10% outlier filter in
`fetch_historical_volatility` (`src/market_data/fetcher.py`,
lines 101–105). -/
noncomputable def filteredReturns (closes : List ℝ) : List ℝ :=
  (npDiff (closes.map Real.log)).filter (fun r => |r| < 0.10)

/-- Embedding of Python's `round(x, 4)` applied to the volatility at
`fetcher.py:116`: the nearest multiple of 1e-4.  (Python breaks exact
ties to even, Mathlib's `round` breaks them upward; the inputs used in
the theorems below are never at an exact tie.) -/
noncomputable def round4 (x : ℝ) : ℝ := ((round (x * 10 ^ 4) : ℤ) : ℝ) / 10 ^ 4

/-- The pure computation of `fetch_historical_volatility`
(`src/market_data/fetcher.py`, lines 94–116), from the list of daily
closes to the annualized volatility — rounded to 4 decimal places as in
`return round(vol, 4), source` — with `none` standing for the
`(None, None)` absence result. -/
noncomputable def histVol (closes : List ℝ) : Option ℝ :=
  if closes.length < 15 then none
  else if (filteredReturns closes).length < 10 then none
  else some (round4 (sampleStd (filteredReturns closes) * Real.sqrt 252))

/-- Size of the single non-zero log return in the close series
`hvCloses` below: 0.000005·√2, chosen so the annualized volatility
comes out to exactly 3·10⁻⁵. -/
noncomputable def hvJump : ℝ := 0.000005 * Real.sqrt 2

/-- Concrete close series for claim C8: fourteen closes of 1 followed by
one close of `exp hvJump`, so the fourteen log returns are thirteen
zeros and `hvJump`, all surviving the 10% filter. -/
noncomputable def hvCloses : List ℝ := List.replicate 14 1 ++ [Real.exp hvJump]

/-- Day-count divisor resolution shared by both handlers in
`src/app.py`: `360 if day_count == 'ACT/360' else 365`. -/
def dayBase (day_count : String) : ℕ :=
  if day_count = "ACT/360" then 360 else 365

/-- Errors surfaced by the `src/app.py` route handlers. -/
inductive AppErr where
  /-- Message "Expiry date must be after valuation date" (only in `calculate`). -/
  | negativeDays
  /-- A `ValueError` raised by the pricing core and converted to a 400. -/
  | core (e : PErr)
  deriving DecidableEq

/-- The day-count / dispatch slice of `src/app.py::calculate`
(lines 47–56): computes the day difference, rejects a negative one,
resolves the day-count divisor and invokes `gk_price`. -/
noncomputable def app_calculate (day_count : String) (days : ℤ)
    (S K sigma r_d r_f : ℝ) (option_type : String) : Except AppErr ℝ :=
  if days < 0 then .error .negativeDays
  else
    match gk_price S K ((days : ℝ) / (dayBase day_count : ℝ)) r_d r_f sigma option_type with
    | .error e => .error (.core e)
    | .ok y => .ok y

/-- The day-count / dispatch slice of `src/app.py::calc_implied_vol`
(lines 151–163): computes the day difference and invokes
`implied_volatility` — the source has no negative-day check on this
route. -/
noncomputable def app_calc_implied_vol (day_count : String) (days : ℤ)
    (price_market S K r_d r_f : ℝ) (option_type : String) : Except AppErr ℝ :=
  match implied_volatility price_market S K ((days : ℝ) / (dayBase day_count : ℝ))
      r_d r_f option_type with
  | .error e => .error (.core e)
  | .ok y => .ok y

theorem normalPDF_nonneg (t : ℝ) : 0 ≤ normalPDF t :=
  div_nonneg (Real.exp_pos _).le (Real.sqrt_nonneg _)

theorem normalPDF_eq (t : ℝ) :
    normalPDF t = (Real.sqrt (2 * Real.pi))⁻¹ * Real.exp (-(1 / 2 : ℝ) * t ^ 2) := by
  unfold normalPDF
  rw [div_eq_inv_mul]
  congr 2
  ring

theorem integrable_normalPDF : Integrable normalPDF := by
  have h : Integrable fun t : ℝ => Real.exp (-(1 / 2 : ℝ) * t ^ 2) :=
    integrable_exp_neg_mul_sq (by norm_num)
  have h2 := h.const_mul (Real.sqrt (2 * Real.pi))⁻¹
  have h3 : (fun t : ℝ => (Real.sqrt (2 * Real.pi))⁻¹ * Real.exp (-(1 / 2 : ℝ) * t ^ 2))
      = normalPDF := funext fun t => (normalPDF_eq t).symm
  rwa [h3] at h2

theorem integral_normalPDF : ∫ t : ℝ, normalPDF t = 1 := by
  have h1 : ∫ t : ℝ, normalPDF t
      = (Real.sqrt (2 * Real.pi))⁻¹ * ∫ t : ℝ, Real.exp (-(1 / 2 : ℝ) * t ^ 2) := by
    rw [← integral_mul_left]
    exact integral_congr_ae (Filter.Eventually.of_forall fun t => normalPDF_eq t)
  rw [h1, integral_gaussian]
  have h2 : Real.pi / (1 / 2 : ℝ) = 2 * Real.pi := by ring
  rw [h2]
  exact inv_mul_cancel₀ (ne_of_gt (Real.sqrt_pos.mpr (by positivity)))

theorem Phi_nonneg (x : ℝ) : 0 ≤ Phi x :=
  setIntegral_nonneg measurableSet_Iic fun t _ => normalPDF_nonneg t

theorem Phi_le_one (x : ℝ) : Phi x ≤ 1 := by
  have h := setIntegral_le_integral (s := Set.Iic x) integrable_normalPDF
    (Filter.Eventually.of_forall normalPDF_nonneg)
  rw [integral_normalPDF] at h
  exact h

/-- Claim C1: for T>0 and σ>0, `gk_price` returns the Garman–Kohlhagen
closed form: with d1 = (ln(S/K) + (r_d - r_f + σ²/2)·T)/(σ·√T) and
d2 = d1 - σ·√T, a call returns S·e^(-r_f·T)·Φ(d1) - K·e^(-r_d·T)·Φ(d2)
and a put returns K·e^(-r_d·T)·Φ(-d2) - S·e^(-r_f·T)·Φ(-d1), where Φ is
the standard normal CDF. -/
theorem gk_price_closed_form (S K T r_d r_f sigma : ℝ)
    (hT : 0 < T) (hs : 0 < sigma) :
    gk_price S K T r_d r_f sigma "call"
      = .ok (S * Real.exp (-r_f * T)
              * Phi ((Real.log (S / K) + (r_d - r_f + sigma ^ 2 / 2) * T)
                      / (sigma * Real.sqrt T))
            - K * Real.exp (-r_d * T)
              * Phi ((Real.log (S / K) + (r_d - r_f + sigma ^ 2 / 2) * T)
                      / (sigma * Real.sqrt T) - sigma * Real.sqrt T)) ∧
    gk_price S K T r_d r_f sigma "put"
      = .ok (K * Real.exp (-r_d * T)
              * Phi (-((Real.log (S / K) + (r_d - r_f + sigma ^ 2 / 2) * T)
                      / (sigma * Real.sqrt T) - sigma * Real.sqrt T))
            - S * Real.exp (-r_f * T)
              * Phi (-((Real.log (S / K) + (r_d - r_f + sigma ^ 2 / 2) * T)
                      / (sigma * Real.sqrt T)))) := by
  have hd : (Real.log (S / K) + (r_d - r_f + 0.5 * sigma ^ 2) * T) / (sigma * Real.sqrt T)
      = (Real.log (S / K) + (r_d - r_f + sigma ^ 2 / 2) * T) / (sigma * Real.sqrt T) := by
    have h05 : (0.5 : ℝ) = 1 / 2 := by norm_num
    rw [h05]; ring
  constructor
  · simp only [gk_price]
    rw [if_neg (not_le.mpr hT), if_neg (not_le.mpr hs), if_true, hd]
  · simp only [gk_price]
    rw [if_neg (not_le.mpr hT), if_neg (not_le.mpr hs), if_neg (by decide : ¬("put" = "call")), hd]

/-- Witness for C1 at S=1, K=1, T=1, r_d=0, r_f=0, σ=1. -/
theorem gk_price_closed_form_witness :
    (0 : ℝ) < 1 ∧
    gk_price 1 1 1 0 0 1 "call"
      = .ok (1 * Real.exp (-0 * 1)
              * Phi ((Real.log (1 / 1) + (0 - 0 + (1 : ℝ) ^ 2 / 2) * 1)
                      / (1 * Real.sqrt 1))
            - 1 * Real.exp (-0 * 1)
              * Phi ((Real.log (1 / 1) + (0 - 0 + (1 : ℝ) ^ 2 / 2) * 1)
                      / (1 * Real.sqrt 1) - 1 * Real.sqrt 1)) :=
  ⟨by norm_num, (gk_price_closed_form 1 1 1 0 0 1 (by norm_num) (by norm_num)).1⟩

/-- Claim C5: at expiry (T=0) `gk_price` returns the intrinsic value,
max(S-K,0) for a call and max(K-S,0) for a put, for any σ, r_d, r_f,
with no error raised. -/
theorem gk_price_expiry_intrinsic (S K r_d r_f sigma : ℝ) :
    gk_price S K 0 r_d r_f sigma "call" = .ok (max (S - K) 0) ∧
    gk_price S K 0 r_d r_f sigma "put" = .ok (max (K - S) 0) := by
  constructor
  · simp only [gk_price]
    rw [if_pos le_rfl, if_true]
  · simp only [gk_price]
    rw [if_pos le_rfl, if_neg (by decide : ¬("put" = "call"))]

theorem gk_greeks_call_eq (S K T r_d r_f sigma : ℝ) (hT : 0 < T) :
    gk_greeks S K T r_d r_f sigma "call" =
      { delta := Real.exp (-r_f * T) * Phi (d1 S K T r_d r_f sigma)
        gamma := Real.exp (-r_f * T) * normalPDF (d1 S K T r_d r_f sigma)
                  / (S * sigma * Real.sqrt T)
        vega := S * Real.exp (-r_f * T) * normalPDF (d1 S K T r_d r_f sigma)
                  * Real.sqrt T / 100
        theta := (-(S * sigma * Real.exp (-r_f * T) * normalPDF (d1 S K T r_d r_f sigma))
                    / (2 * Real.sqrt T)
                  + r_f * S * Real.exp (-r_f * T) * Phi (d1 S K T r_d r_f sigma)
                  - r_d * K * Real.exp (-r_d * T) * Phi (d2 S K T r_d r_f sigma)) / 365
        rho_d := K * T * Real.exp (-r_d * T) * Phi (d2 S K T r_d r_f sigma) / 100
        rho_f := -S * T * Real.exp (-r_f * T) * Phi (d1 S K T r_d r_f sigma) / 100 } := by
  simp only [gk_greeks, d1, d2]
  rw [if_neg (not_le.mpr hT), if_true]

theorem gk_greeks_put_eq (S K T r_d r_f sigma : ℝ) (option_type : String)
    (hT : 0 < T) (hot : ¬ option_type = "call") :
    gk_greeks S K T r_d r_f sigma option_type =
      { delta := -Real.exp (-r_f * T) * Phi (-d1 S K T r_d r_f sigma)
        gamma := Real.exp (-r_f * T) * normalPDF (d1 S K T r_d r_f sigma)
                  / (S * sigma * Real.sqrt T)
        vega := S * Real.exp (-r_f * T) * normalPDF (d1 S K T r_d r_f sigma)
                  * Real.sqrt T / 100
        theta := (-(S * sigma * Real.exp (-r_f * T) * normalPDF (d1 S K T r_d r_f sigma))
                    / (2 * Real.sqrt T)
                  - r_f * S * Real.exp (-r_f * T) * Phi (-d1 S K T r_d r_f sigma)
                  + r_d * K * Real.exp (-r_d * T) * Phi (-d2 S K T r_d r_f sigma)) / 365
        rho_d := -K * T * Real.exp (-r_d * T) * Phi (-d2 S K T r_d r_f sigma) / 100
        rho_f := S * T * Real.exp (-r_f * T) * Phi (-d1 S K T r_d r_f sigma) / 100 } := by
  simp only [gk_greeks, d1, d2]
  rw [if_neg (not_le.mpr hT), if_neg hot]

/-- Claim C4 counterexample: the claim asserts σ=0 at T>0 is not
rejected, but `gk_price` raises the invalid-input error for σ=0. -/
theorem gk_price_rejects_zero_vol :
    gk_price 1 1 1 0 0 0 "call" = .error .nonPosVol := by
  simp only [gk_price]
  rw [if_neg (by norm_num : ¬((1 : ℝ) ≤ 0)), if_pos le_rfl]

/-- Claim C4 (amended): for T>0, `gk_price` fails with the invalid-input
error exactly when σ ≤ 0 — zero volatility is rejected along with
negative volatility — and returns a value for every σ > 0. -/
theorem gk_price_vol_validation (S K T r_d r_f sigma : ℝ) (option_type : String)
    (hT : 0 < T) :
    (gk_price S K T r_d r_f sigma option_type = .error .nonPosVol ↔ sigma ≤ 0) ∧
    (0 < sigma → ∃ y, gk_price S K T r_d r_f sigma option_type = .ok y) := by
  simp only [gk_price]
  rw [if_neg (not_le.mpr hT)]
  by_cases hs : sigma ≤ 0
  · rw [if_pos hs]
    exact ⟨⟨fun _ => hs, fun _ => rfl⟩, fun h => absurd hs (not_le.mpr h)⟩
  · rw [if_neg hs]
    constructor
    · constructor
      · intro h
        by_cases hc : option_type = "call" <;> simp [hc] at h
      · intro h; exact absurd h hs
    · intro _
      by_cases hc : option_type = "call"
      · rw [if_pos hc]; exact ⟨_, rfl⟩
      · rw [if_neg hc]; exact ⟨_, rfl⟩

/-- Witness for the amended C4 at T=1, σ=-1. -/
theorem gk_price_vol_validation_witness :
    (0 : ℝ) < 1 ∧
    (gk_price 1 1 1 0 0 (-1) "call" = .error .nonPosVol ↔ (-1 : ℝ) ≤ 0) :=
  ⟨by norm_num, (gk_price_vol_validation 1 1 1 0 0 (-1) "call" (by norm_num)).1⟩

/-- Claim C6: for valid inputs with T>0 and σ>0, call delta lies in
[0, e^(-r_f·T)], put delta lies in [-e^(-r_f·T), 0], and gamma and vega
are non-negative (for either option kind). -/
theorem gk_greeks_sign_bounds (S K T r_d r_f sigma : ℝ)
    (hS : 0 < S) (hK : 0 < K) (hT : 0 < T) (hsig : 0 < sigma) :
    (0 ≤ (gk_greeks S K T r_d r_f sigma "call").delta ∧
      (gk_greeks S K T r_d r_f sigma "call").delta ≤ Real.exp (-r_f * T)) ∧
    (-Real.exp (-r_f * T) ≤ (gk_greeks S K T r_d r_f sigma "put").delta ∧
      (gk_greeks S K T r_d r_f sigma "put").delta ≤ 0) ∧
    (∀ option_type : String,
      0 ≤ (gk_greeks S K T r_d r_f sigma option_type).gamma ∧
      0 ≤ (gk_greeks S K T r_d r_f sigma option_type).vega) := by
  have hexp : (0 : ℝ) ≤ Real.exp (-r_f * T) := (Real.exp_pos _).le
  have hgamma : ∀ x : ℝ,
      0 ≤ Real.exp (-r_f * T) * normalPDF x / (S * sigma * Real.sqrt T) :=
    fun x => div_nonneg (mul_nonneg hexp (normalPDF_nonneg x))
      (mul_nonneg (mul_nonneg hS.le hsig.le) (Real.sqrt_nonneg T))
  have hvega : ∀ x : ℝ,
      0 ≤ S * Real.exp (-r_f * T) * normalPDF x * Real.sqrt T / 100 :=
    fun x => div_nonneg
      (mul_nonneg (mul_nonneg (mul_nonneg hS.le hexp) (normalPDF_nonneg x))
        (Real.sqrt_nonneg T)) (by norm_num)
  refine ⟨?_, ?_, ?_⟩
  · rw [gk_greeks_call_eq S K T r_d r_f sigma hT]
    exact ⟨mul_nonneg hexp (Phi_nonneg _), mul_le_of_le_one_right hexp (Phi_le_one _)⟩
  · rw [gk_greeks_put_eq S K T r_d r_f sigma "put" hT (by decide)]
    constructor
    · have h1 : Real.exp (-r_f * T) * Phi (-d1 S K T r_d r_f sigma) ≤ Real.exp (-r_f * T) :=
        mul_le_of_le_one_right hexp (Phi_le_one _)
      have h2 : -Real.exp (-r_f * T) * Phi (-d1 S K T r_d r_f sigma)
          = -(Real.exp (-r_f * T) * Phi (-d1 S K T r_d r_f sigma)) := by ring
      rw [h2]
      exact neg_le_neg h1
    · have h2 : -Real.exp (-r_f * T) * Phi (-d1 S K T r_d r_f sigma)
          = -(Real.exp (-r_f * T) * Phi (-d1 S K T r_d r_f sigma)) := by ring
      rw [h2]
      exact neg_nonpos.mpr (mul_nonneg hexp (Phi_nonneg _))
  · intro option_type
    rcases eq_or_ne option_type "call" with hc | hc
    · rw [hc, gk_greeks_call_eq S K T r_d r_f sigma hT]
      exact ⟨hgamma _, hvega _⟩
    · rw [gk_greeks_put_eq S K T r_d r_f sigma option_type hT hc]
      exact ⟨hgamma _, hvega _⟩

/-- Witness for C6 at S=1, K=1, T=1, r_d=0, r_f=0, σ=1. -/
theorem gk_greeks_sign_bounds_witness :
    (0 : ℝ) < 1 ∧
    (0 ≤ (gk_greeks 1 1 1 0 0 1 "call").delta ∧
      (gk_greeks 1 1 1 0 0 1 "call").delta ≤ Real.exp (-0 * 1)) :=
  ⟨by norm_num,
    (gk_greeks_sign_bounds 1 1 1 0 0 1 (by norm_num) (by norm_num) (by norm_num)
      (by norm_num)).1⟩

/-- Claim C10: `gk_greeks` performs no volatility validation.  At σ=0
with T>0 the quotient defining `d1` has divisor `0·√T = 0` and the
quotient defining gamma has divisor `S·0·√T = 0` (a division by zero,
which in floating point produces non-finite values), while `gk_price`
at the same input raises the invalid-input error; `gk_greeks` still
returns a record rather than an error. -/
theorem gk_greeks_no_vol_validation (S K T r_d r_f : ℝ) (option_type : String)
    (hT : 0 < T) :
    gk_price S K T r_d r_f 0 option_type = .error .nonPosVol ∧
    (gk_greeks S K T r_d r_f 0 option_type).gamma
      = Real.exp (-r_f * T) * normalPDF (d1 S K T r_d r_f 0)
          / (S * 0 * Real.sqrt T) ∧
    d1 S K T r_d r_f 0
      = (Real.log (S / K) + (r_d - r_f + 0.5 * 0 ^ 2) * T) / (0 * Real.sqrt T) ∧
    S * 0 * Real.sqrt T = 0 ∧ (0 : ℝ) * Real.sqrt T = 0 := by
  refine ⟨?_, ?_, rfl, by ring, by ring⟩
  · simp only [gk_price]
    rw [if_neg (not_le.mpr hT), if_pos le_rfl]
  · rcases eq_or_ne option_type "call" with hc | hc
    · rw [hc, gk_greeks_call_eq S K T r_d r_f 0 hT]
    · rw [gk_greeks_put_eq S K T r_d r_f 0 option_type hT hc]

/-- Witness for C10 at T=1. -/
theorem gk_greeks_no_vol_validation_witness :
    (0 : ℝ) < 1 ∧ gk_price 1 1 1 0 0 0 "put" = .error .nonPosVol :=
  ⟨by norm_num, (gk_greeks_no_vol_validation 1 1 1 0 0 "put" (by norm_num)).1⟩

theorem gk_price_ok (S K T r_d r_f sigma : ℝ) (option_type : String)
    (hT : 0 < T) (hs : 0 < sigma) :
    ∃ y, gk_price S K T r_d r_f sigma option_type = .ok y := by
  simp only [gk_price]
  rw [if_neg (not_le.mpr hT), if_neg (not_le.mpr hs)]
  by_cases hc : option_type = "call"
  · rw [if_pos hc]; exact ⟨_, rfl⟩
  · rw [if_neg hc]; exact ⟨_, rfl⟩

theorem bisect_ok (S K T r_d r_f : ℝ) (option_type : String) (p tol : ℝ)
    (hT : 0 < T) :
    ∀ fuel (lo hi : ℝ), 0 < lo → 0 < hi →
      ∃ y, bisect S K T r_d r_f option_type p tol fuel lo hi = .ok y := by
  intro fuel
  induction fuel with
  | zero => intro lo hi _ _; exact ⟨_, rfl⟩
  | succ n ih =>
    intro lo hi hlo hhi
    have hmid : 0 < (lo + hi) / 2 := by linarith
    obtain ⟨pm, hpm⟩ := gk_price_ok S K T r_d r_f ((lo + hi) / 2) option_type hT hmid
    simp only [bisect, hpm]
    by_cases h1 : |pm - p| < tol
    · rw [if_pos h1]; exact ⟨_, rfl⟩
    · rw [if_neg h1]
      by_cases h2 : n = 0
      · rw [if_pos h2]; exact ⟨_, rfl⟩
      · rw [if_neg h2]
        by_cases h3 : p < pm
        · rw [if_pos h3]; exact ih lo ((lo + hi) / 2) hlo hmid
        · rw [if_neg h3]; exact ih ((lo + hi) / 2) hi hmid hhi

theorem clip_pos (x lo hi : ℝ) (hlo : 0 < lo) (hhi : 0 < hi) : 0 < clip x lo hi :=
  lt_min (lt_of_lt_of_le hlo (le_max_right x lo)) hhi

theorem newton_ok (S K T r_d r_f : ℝ) (option_type : String) (p tol : ℝ)
    (hT : 0 < T) :
    ∀ fuel (sigma : ℝ), 0 < sigma →
      ∃ y, newton S K T r_d r_f option_type p tol fuel sigma = .ok y := by
  intro fuel
  induction fuel with
  | zero =>
    intro sigma _
    exact bisect_ok S K T r_d r_f option_type p tol hT 200 0.001 10.0
      (by norm_num) (by norm_num)
  | succ n ih =>
    intro sigma hs
    obtain ⟨pc, hpc⟩ := gk_price_ok S K T r_d r_f sigma option_type hT hs
    simp only [newton, hpc]
    by_cases h1 : |pc - p| < tol
    · rw [if_pos h1]; exact ⟨_, rfl⟩
    · rw [if_neg h1]
      by_cases h2 : S * Real.exp (-r_f * T)
          * normalPDF ((Real.log (S / K) + (r_d - r_f + 0.5 * sigma ^ 2) * T)
            / (sigma * Real.sqrt T)) * Real.sqrt T < 1e-12
      · rw [if_pos h2]
        exact bisect_ok S K T r_d r_f option_type p tol hT 200 0.001 10.0
          (by norm_num) (by norm_num)
      · rw [if_neg h2]
        exact ih _ (clip_pos _ _ _ (by norm_num) (by norm_num))

/-- Claim C7: for T>0 with the observed premium strictly between the
no-arbitrage bounds, `implied_volatility` always returns a value and
never raises: Newton–Raphson (cap 100, σ clamped to [0.001, 10]) falls
back on vega underflow or cap exhaustion to bisection over [0.001, 10]
for up to 200 iterations, which always produces a candidate. -/
theorem implied_volatility_total (p S K T r_d r_f : ℝ) (option_type : String)
    (hT : 0 < T)
    (hlb : lowerBound S K T r_d r_f option_type < p)
    (hub : p < upperBound S K T r_d r_f option_type) :
    ∃ sigma, implied_volatility p S K T r_d r_f option_type = .ok sigma := by
  simp only [implied_volatility]
  rw [if_neg (not_le.mpr hT), if_neg (not_le.mpr hlb), if_neg (not_le.mpr hub)]
  exact newton_ok S K T r_d r_f option_type p 1e-8 hT 100 _
    (clip_pos _ _ _ (by norm_num) (by norm_num))

/-- Witness for C7 at S=1, K=1, T=1, r_d=0, r_f=0, p=1/2. -/
theorem implied_volatility_total_witness :
    ((0 : ℝ) < 1 ∧ lowerBound 1 1 1 0 0 "call" < 1 / 2 ∧
      (1 / 2 : ℝ) < upperBound 1 1 1 0 0 "call") ∧
    ∃ sigma, implied_volatility (1 / 2) 1 1 1 0 0 "call" = .ok sigma := by
  have h1 : (0 : ℝ) < 1 := by norm_num
  have h2 : lowerBound 1 1 1 0 0 "call" < 1 / 2 := by
    simp only [lowerBound, if_true]
    norm_num [Real.exp_zero]
  have h3 : (1 / 2 : ℝ) < upperBound 1 1 1 0 0 "call" := by
    simp only [upperBound, if_true]
    norm_num [Real.exp_zero]
  exact ⟨⟨h1, h2, h3⟩, implied_volatility_total (1 / 2) 1 1 1 0 0 "call" h1 h2 h3⟩

/-- Claim C3: for T>0, `implied_volatility` fails with a bounds-violation
error exactly when the observed premium does not lie strictly between the
intrinsic lower bound and the discounted-forward upper bound, reporting
which bound was violated; in particular for S=1.10, K=1.00, T=1,
r_d=0.03, r_f=0.01, call, premium 0.01 it fails below-intrinsic. -/
theorem implied_volatility_bounds_check :
    (∀ (p S K T r_d r_f : ℝ) (option_type : String), 0 < T →
      (implied_volatility p S K T r_d r_f option_type = .error .belowIntrinsic ↔
        p ≤ lowerBound S K T r_d r_f option_type) ∧
      (implied_volatility p S K T r_d r_f option_type = .error .aboveCeiling ↔
        lowerBound S K T r_d r_f option_type < p ∧
          upperBound S K T r_d r_f option_type ≤ p) ∧
      ((∃ e, implied_volatility p S K T r_d r_f option_type = .error e) ↔
        ¬(lowerBound S K T r_d r_f option_type < p ∧
            p < upperBound S K T r_d r_f option_type))) ∧
    implied_volatility 0.01 1.10 1.00 1 0.03 0.01 "call" = .error .belowIntrinsic := by
  constructor
  · intro p S K T r_d r_f option_type hT
    by_cases h1 : p ≤ lowerBound S K T r_d r_f option_type
    · have hiv : implied_volatility p S K T r_d r_f option_type
          = .error .belowIntrinsic := by
        simp only [implied_volatility]
        rw [if_neg (not_le.mpr hT), if_pos h1]
      refine ⟨⟨fun _ => h1, fun _ => hiv⟩, ⟨?_, ?_⟩, ?_, fun _ => ⟨_, hiv⟩⟩
      · intro h
        rw [hiv] at h
        exact PErr.noConfusion (Except.error.inj h)
      · rintro ⟨ha, _⟩
        exact absurd h1 (not_le.mpr ha)
      · rintro _ ⟨ha, _⟩
        exact absurd h1 (not_le.mpr ha)
    · have hlb : lowerBound S K T r_d r_f option_type < p := not_le.mp h1
      by_cases h2 : upperBound S K T r_d r_f option_type ≤ p
      · have hiv : implied_volatility p S K T r_d r_f option_type
            = .error .aboveCeiling := by
          simp only [implied_volatility]
          rw [if_neg (not_le.mpr hT), if_neg h1, if_pos h2]
        refine ⟨⟨?_, fun hle => absurd hle h1⟩, ⟨fun _ => ⟨hlb, h2⟩, fun _ => hiv⟩,
          ?_, fun _ => ⟨_, hiv⟩⟩
        · intro h
          rw [hiv] at h
          exact PErr.noConfusion (Except.error.inj h)
        · rintro _ ⟨_, hb⟩
          exact absurd h2 (not_le.mpr hb)
      · have hub : p < upperBound S K T r_d r_f option_type := not_le.mp h2
        obtain ⟨y, hy⟩ : ∃ y, implied_volatility p S K T r_d r_f option_type
            = .ok y := by
          simp only [implied_volatility]
          rw [if_neg (not_le.mpr hT), if_neg h1, if_neg h2]
          exact newton_ok S K T r_d r_f option_type p 1e-8 hT 100 _
            (clip_pos _ _ _ (by norm_num) (by norm_num))
        refine ⟨⟨?_, fun hle => absurd hle h1⟩,
          ⟨?_, fun hc => absurd hc.2 h2⟩, ?_, ?_⟩
        · intro h; rw [hy] at h; exact Except.noConfusion h
        · intro h; rw [hy] at h; exact Except.noConfusion h
        · rintro ⟨e, he⟩
          rw [hy] at he
          exact Except.noConfusion he
        · intro h
          exact absurd ⟨hlb, hub⟩ h
  · have e1 : (0.99 : ℝ) ≤ Real.exp (-0.01) := by
      have h := Real.add_one_le_exp (-0.01)
      linarith
    have e2 : (1.03 : ℝ) ≤ Real.exp 0.03 := by
      have h := Real.add_one_le_exp (0.03)
      linarith
    have e3 : Real.exp (-0.03) ≤ 1 / 1.03 := by
      rw [Real.exp_neg]
      have h := inv_anti₀ (by norm_num : (0 : ℝ) < 1.03) e2
      rw [one_div]
      exact h
    have hle : (0.01 : ℝ) ≤ lowerBound 1.10 1.00 1 0.03 0.01 "call" := by
      simp only [lowerBound, if_true]
      have hA : (0.01 : ℝ) ≤ 1.10 * Real.exp (-(0.01) * 1) - 1.00 * Real.exp (-(0.03) * 1) := by
        have hx : (-(0.01) : ℝ) * 1 = -0.01 := by norm_num
        have hy : (-(0.03) : ℝ) * 1 = -0.03 := by norm_num
        rw [hx, hy]
        nlinarith [e1, e3]
      exact le_trans hA (le_max_left _ _)
    simp only [implied_volatility]
    rw [if_neg (by norm_num : ¬((1 : ℝ) ≤ 0)), if_pos hle]

/-- Witness for C3 at p=1/2, S=1, K=1, T=1, r_d=0, r_f=0, call. -/
theorem implied_volatility_bounds_check_witness :
    (0 : ℝ) < 1 ∧
    (implied_volatility (1 / 2) 1 1 1 0 0 "call" = .error .belowIntrinsic ↔
      (1 / 2 : ℝ) ≤ lowerBound 1 1 1 0 0 "call") :=
  ⟨by norm_num,
    (implied_volatility_bounds_check.1 (1 / 2) 1 1 1 0 0 "call" (by norm_num)).1⟩

/-- Claim C8 counterexample: the source rounds the annualized
volatility to 4 decimal places (`return round(vol, 4), source`), so the
claimed exact value std×√252 is not what is returned.  On `hvCloses`
(15 closes, 14 surviving returns) the exact annualized volatility is
3·10⁻⁵, which rounds to 0. -/
theorem histVol_rounds_result :
    15 ≤ hvCloses.length ∧
    10 ≤ (filteredReturns hvCloses).length ∧
    histVol hvCloses
      ≠ some (sampleStd (filteredReturns hvCloses) * Real.sqrt 252) := by
  have hs2 : Real.sqrt 2 < 1.5 := by
    nlinarith [Real.sq_sqrt (by norm_num : (0 : ℝ) ≤ 2), Real.sqrt_nonneg 2]
  have hjnn : 0 ≤ hvJump := by
    rw [hvJump]
    positivity
  have hjlt : |hvJump| < 0.10 := by
    rw [abs_of_nonneg hjnn, hvJump]
    nlinarith [hs2, Real.sqrt_nonneg 2]
  have hlog : hvCloses.map Real.log = List.replicate 14 0 ++ [hvJump] := by
    simp [hvCloses, Real.log_one, Real.log_exp]
  have hdiff : npDiff (List.replicate 14 (0 : ℝ) ++ [hvJump])
      = List.replicate 13 0 ++ [hvJump] := by
    norm_num [List.replicate_succ, npDiff]
  have hjlt10 : |hvJump| < 1 / 10 := by
    rw [abs_of_nonneg hjnn, hvJump]
    nlinarith [hs2, Real.sqrt_nonneg 2]
  have hfilt : (List.replicate 13 (0 : ℝ) ++ [hvJump]).filter (fun r => |r| < 0.10)
      = List.replicate 13 0 ++ [hvJump] := by
    norm_num [List.replicate_succ, List.filter_cons, abs_zero, hjlt10]
  have hfr : filteredReturns hvCloses = List.replicate 13 0 ++ [hvJump] := by
    rw [filteredReturns, hlog, hdiff, hfilt]
  have hstd : sampleStd (List.replicate 13 (0 : ℝ) ++ [hvJump])
      = Real.sqrt (hvJump ^ 2 / 14) := by
    have hlist : List.replicate 13 (0 : ℝ) ++ [hvJump]
        = [0, 0, 0, 0, 0, 0, 0, 0, 0, 0, 0, 0, 0, hvJump] := by
      norm_num [List.replicate_succ]
    rw [hlist, sampleStd, listMean]
    congr 1
    norm_num
    ring
  have hsq : hvJump ^ 2 = 0.00000000005 := by
    rw [hvJump, mul_pow, Real.sq_sqrt (by norm_num : (0 : ℝ) ≤ 2)]
    norm_num
  have harg : hvJump ^ 2 / 14 * 252 = 0.00003 ^ 2 := by
    rw [hsq]
    norm_num
  have hvol : Real.sqrt (hvJump ^ 2 / 14) * Real.sqrt 252 = 0.00003 := by
    rw [← Real.sqrt_mul (by positivity : (0 : ℝ) ≤ hvJump ^ 2 / 14) 252, harg,
      Real.sqrt_sq (by norm_num : (0 : ℝ) ≤ 0.00003)]
  have hround : round4 0.00003 = 0 := by
    have hfl : ⌊(0.00003 : ℝ) * 10 ^ 4 + 1 / 2⌋ = 0 := by
      apply Int.floor_eq_zero_iff.mpr
      constructor <;> norm_num
    rw [round4, round_eq, hfl]
    norm_num
  have hv : histVol hvCloses
      = some (round4 (sampleStd (filteredReturns hvCloses) * Real.sqrt 252)) := by
    have h15' : ¬ hvCloses.length < 15 := by simp [hvCloses]
    have h10' : ¬ (filteredReturns hvCloses).length < 10 := by
      rw [hfr]
      simp
    simp only [histVol]
    rw [if_neg h15', if_neg h10']
  have hvalue : sampleStd (filteredReturns hvCloses) * Real.sqrt 252 = 0.00003 := by
    rw [hfr, hstd]
    exact hvol
  refine ⟨by simp [hvCloses], by rw [hfr]; simp, ?_⟩
  rw [hv, hvalue, hround]
  simp only [ne_eq, Option.some.injEq]
  norm_num

/-- Claim C8 (amended): for at least 15 raw daily closes, the
historical-volatility computation discards each log return with
absolute value ≥ 10% and returns `none` when fewer than 10 returns
survive; otherwise it returns the Bessel-corrected sample standard
deviation of the surviving returns times √252, rounded to 4 decimal
places. -/
theorem histVol_spec (closes : List ℝ) (h15 : 15 ≤ closes.length) :
    ((filteredReturns closes).length < 10 → histVol closes = none) ∧
    (10 ≤ (filteredReturns closes).length →
      histVol closes
        = some (round4 (sampleStd (filteredReturns closes) * Real.sqrt 252))) := by
  have hnot : ¬ closes.length < 15 := not_lt.mpr h15
  constructor
  · intro hlt
    simp only [histVol]
    rw [if_neg hnot, if_pos hlt]
  · intro hge
    simp only [histVol]
    rw [if_neg hnot, if_neg (not_lt.mpr hge)]

/-- Witness for C8 on fifteen equal closes (all log returns are 0 and
survive the filter). -/
theorem histVol_spec_witness :
    15 ≤ (List.replicate 15 (1 : ℝ)).length ∧
    10 ≤ (filteredReturns (List.replicate 15 (1 : ℝ))).length ∧
    histVol (List.replicate 15 (1 : ℝ))
      = some (round4 (sampleStd (filteredReturns (List.replicate 15 (1 : ℝ)))
          * Real.sqrt 252)) := by
  have h1 : (List.replicate 15 (1 : ℝ)).map Real.log = List.replicate 15 0 := by
    simp [List.map_replicate, Real.log_one]
  have h2 : npDiff (List.replicate 15 (0 : ℝ)) = List.replicate 14 0 := by
    norm_num [List.replicate_succ, npDiff]
  have h3 : (List.replicate 14 (0 : ℝ)).filter (fun r => |r| < 0.10)
      = List.replicate 14 0 := by
    norm_num [List.replicate_succ, List.filter_cons, abs_zero]
  have hfr : filteredReturns (List.replicate 15 (1 : ℝ)) = List.replicate 14 0 := by
    rw [filteredReturns, h1, h2, h3]
  have hlen : 10 ≤ (filteredReturns (List.replicate 15 (1 : ℝ))).length := by
    rw [hfr]; simp
  have h15 : 15 ≤ (List.replicate 15 (1 : ℝ)).length := by simp
  exact ⟨h15, hlen, (histVol_spec (List.replicate 15 (1 : ℝ)) h15).2 hlen⟩

/-- Claim C9 counterexample: on the implied-volatility route a negative
day difference is NOT rejected before invoking the solver — the solver
itself is invoked and raises its own past-expiry error, not the
handler's negative-days rejection. -/
theorem calc_implied_vol_no_negative_check :
    app_calc_implied_vol "ACT/365" (-30) 0.5 1 1 0 0 "call"
      = .error (.core .pastExpiry) ∧
    app_calc_implied_vol "ACT/365" (-30) 0.5 1 1 0 0 "call"
      ≠ .error .negativeDays := by
  have hT : (((-30 : ℤ) : ℝ) / ((dayBase "ACT/365") : ℝ)) ≤ 0 := by
    rw [show dayBase "ACT/365" = 365 by decide]
    norm_num
  have hiv : implied_volatility 0.5 1 1 (((-30 : ℤ) : ℝ) / ((dayBase "ACT/365") : ℝ))
      0 0 "call" = .error .pastExpiry := by
    simp only [implied_volatility]
    rw [if_pos hT]
  constructor
  · simp only [app_calc_implied_vol, hiv]
  · simp only [app_calc_implied_vol, hiv]
    intro h
    exact AppErr.noConfusion (Except.error.inj h)

/-- Claim C9 (amended): time-to-expiry is the integer day difference
divided by 360 for the "ACT/360" tag and 365 for any other tag; the
pricing route rejects a negative day difference before invoking
pricing, but the implied-volatility route performs no such check and
invokes the solver, which fails with its own past-expiry error. -/
theorem day_count_resolution :
    dayBase "ACT/360" = 360 ∧
    (∀ day_count : String, day_count ≠ "ACT/360" → dayBase day_count = 365) ∧
    (∀ (day_count : String) (days : ℤ) (S K sigma r_d r_f : ℝ) (option_type : String),
      days < 0 →
      app_calculate day_count days S K sigma r_d r_f option_type
        = .error .negativeDays) ∧
    (∀ (day_count : String) (days : ℤ) (p S K r_d r_f : ℝ) (option_type : String),
      days < 0 →
      app_calc_implied_vol day_count days p S K r_d r_f option_type
        = .error (.core .pastExpiry)) := by
  refine ⟨by simp [dayBase], fun dc h => by simp [dayBase, h], ?_, ?_⟩
  · intro dc days S K sigma r_d r_f ot hdays
    simp only [app_calculate]
    rw [if_pos hdays]
  · intro dc days p S K r_d r_f ot hdays
    have hb : (0 : ℝ) < ((dayBase dc) : ℝ) := by
      unfold dayBase
      split <;> norm_num
    have hcast : ((days : ℤ) : ℝ) ≤ 0 := by exact_mod_cast hdays.le
    have hT : ((days : ℝ) / ((dayBase dc) : ℝ)) ≤ 0 := by
      rw [div_nonpos_iff]
      right
      exact ⟨hcast, hb.le⟩
    have hiv : implied_volatility p S K ((days : ℝ) / ((dayBase dc) : ℝ)) r_d r_f ot
        = .error .pastExpiry := by
      simp only [implied_volatility]
      rw [if_pos hT]
    simp only [app_calc_implied_vol, hiv]

/-- Witness for the amended C9 at days = -1. -/
theorem day_count_resolution_witness :
    ((-1 : ℤ) < 0 ∧
      app_calculate "ACT/365" (-1) 1 1 1 0 0 "call" = .error .negativeDays) ∧
    app_calc_implied_vol "ACT/365" (-1) 1 1 1 0 0 "call"
      = .error (.core .pastExpiry) :=
  ⟨⟨by norm_num,
    day_count_resolution.2.2.1 "ACT/365" (-1) 1 1 1 0 0 "call" (by norm_num)⟩,
    day_count_resolution.2.2.2 "ACT/365" (-1) 1 1 1 0 0 "call" (by norm_num)⟩
